import Mathlib

/-!
Verification development for the scannrs scanner front end.

The definitions below are a shallow embedding of the program's source:

* `src/commands/scan.rs` (`scan`): device lookup, destination-file creation,
  option application, acquisition and image reconstruction;
* `src/commands/options.rs` and `src/main.rs`: the same lookup contract;
* `src/commands/tui/mod.rs` (`tui`, `App`): terminal raw-mode handling and
  the application event loop;
* `src/commands/tui/device_picker.rs` (`DevicePicker::handle_event`);
* `src/error.rs` (`ScannrsError`).

External collaborators that the source calls are embedded from their own
sources where their behaviour decides a property: the `image` crate's
`ImageBuffer::from_raw` (which accepts any buffer at least as large as
`channels * width * height`) and ratatui's `ListState::select_next` /
`select_previous` (unbounded saturating increment / decrement; the list
widget clamps only at render time).  Fallible external calls whose outcome
is not determined by this repository (driver, filesystem, encoder) are
parameterised by explicit outcome fields in an environment record, so the
pipeline is a total executable function of its environment.

Byte strings (Rust `Vec<u8>` / `CStr` contents) are modelled as `List Nat`
and compared element-wise, matching the source's byte-for-byte comparisons.
-/

namespace Scannrs

/-- Byte string: contents of a Rust `Vec<u8>` or `CStr`. -/
abbrev ByteStr := List Nat

/-! ## Textual value parsing (Rust `str::parse::<i32>` and `CString::new`) -/

/-- Value of one ASCII digit, `none` on any other character. -/
def digitVal (c : Char) : Option Nat :=
  if c.isDigit then some (c.toNat - 48) else none

/-- Accumulate base-10 digits; `none` as soon as a non-digit appears. -/
def parseDigitsGo : List Char → Nat → Option Nat
  | [], acc => some acc
  | c :: cs, acc =>
    match digitVal c with
    | none => none
    | some d => parseDigitsGo cs (acc * 10 + d)

/-- Parse a non-empty all-digit character list as a natural number. -/
def parseDigits : List Char → Option Nat
  | [] => none
  | c :: cs => parseDigitsGo (c :: cs) 0

/-- Rust `i32::from_str`: optional sign, at least one digit, nothing else,
result within `[-2^31, 2^31)`.  This is the parse invoked by
`val.parse()` in `scan.rs` for integer-kind options. -/
def parseI32 (s : String) : Option Int :=
  match s.data with
  | [] => none
  | c :: cs =>
    if c.toNat = 43 then
      (parseDigits cs).bind fun n =>
        if n ≤ 2147483647 then some (Int.ofNat n) else none
    else if c.toNat = 45 then
      (parseDigits cs).bind fun n =>
        if n ≤ 2147483648 then some (-(Int.ofNat n)) else none
    else
      (parseDigits (c :: cs)).bind fun n =>
        if n ≤ 2147483647 then some (Int.ofNat n) else none

/-- Whether the text contains an embedded NUL byte; `CString::new` in
`scan.rs` fails exactly on such input. -/
def containsNul (s : String) : Bool :=
  s.data.any fun c => c.toNat = 0

/-! ## sane_scan data types used by the source -/

/-- `sane_scan::ValueType`. -/
inductive ValueType
  | bool
  | int
  | fixed
  | string
  | button
  | group
  deriving DecidableEq, Repr

/-- `sane_scan::DeviceOptionValue`, restricted to the constructors the
source builds (`Int` from a parsed i32, `String` from a NUL-free text). -/
inductive DeviceOptionValue
  | int (n : Int)
  | string (s : String)
  deriving DecidableEq, Repr

/-- `sane_scan::Device`: a device descriptor; only the name takes part in
the source's logic (byte-for-byte comparisons). -/
structure Device where
  name : ByteStr
  deriving DecidableEq, Repr

/-- `sane_scan::DeviceOption`: one capability option of an open session. -/
structure DeviceOption where
  name : ByteStr
  title : String
  type_ : ValueType
  deriving DecidableEq, Repr

/-- `sane_scan::Frame`: the color-layout tag of Acquisition Parameters. -/
inductive Frame
  | gray
  | rgb
  | red
  | green
  | blue
  deriving DecidableEq, Repr

/-- `sane_scan::Parameters` as read by `scan.rs`; the numeric fields are
i32 on the Rust side and are cast `as u32` at each use site. -/
structure ScanParameters where
  format : Frame
  last_frame : Bool
  bytes_per_line : Int
  pixels_per_line : Int
  lines : Int
  depth : Int
  deriving DecidableEq, Repr

/-- Rust `i32 as u32`: two's-complement reinterpretation, i.e. the
nonnegative remainder mod `2^32`. -/
def asU32 (i : Int) : Nat :=
  (i % (2 ^ 32 : Int)).toNat

/-! ## Errors of the scan pipeline

`ScannrsError` variants come from `src/error.rs`; the remaining
constructors stand for the external failures the source wraps with
`into_diagnostic()` (driver, filesystem, parse and NUL errors), which
reach the caller as opaque diagnostics rather than `ScannrsError` values. -/

inductive ScanError
  | couldNotFindScanner (name : ByteStr)
  | sane
  | optionNotFound (name : ByteStr) (option : ByteStr)
  | invalidOption
  | invalidImageSize (width : Nat) (height : Nat) (buffer_size : Nat) (pixel_size : Nat)
  | getDevicesError
  | openError
  | fileError
  | getOptionsError
  | parseIntError (val : String)
  | nulError (key : ByteStr) (val : String)
  | setOptionError (key : ByteStr)
  | startScanError
  | readError
  | encodeError
  deriving DecidableEq, Repr

/-! ## image crate: `ImageBuffer::from_raw`

Embedded from the image crate's `buffer.rs`: `image_buffer_len` is
`CHANNEL_COUNT.checked_mul(width).checked_mul(height)` over `usize`, and
`from_raw` succeeds iff that length is defined and `≤ buf.len()`. -/

/-- `usize::checked_mul` (64-bit). -/
def checkedMulU64 (a b : Nat) : Option Nat :=
  if a * b < 2 ^ 64 then some (a * b) else none

/-- `ImageBuffer::image_buffer_len` for a pixel type with `channels`
channels of one byte each. -/
def imageBufferLen (channels w h : Nat) : Option Nat :=
  (checkedMulU64 channels w).bind fun s => checkedMulU64 s h

/-- `ImageBuffer::check_image_fits`: the declared minimum length is
defined and does not exceed the buffer length. -/
def checkImageFits (channels w h len : Nat) : Bool :=
  match imageBufferLen channels w h with
  | some minLen => minLen ≤ len
  | none => false

/-- A reconstructed pixel buffer (`GrayImage` / `RgbImage` wrapped in
`DynamicImage`); it keeps the whole raw container, as `from_raw` does. -/
inductive Image
  | gray (w h : Nat) (data : List Nat)
  | rgb (w h : Nat) (data : List Nat)
  deriving DecidableEq, Repr

/-- `image::GrayImage::from_raw`: one byte per pixel. -/
def grayImageFromRaw (w h : Nat) (data : List Nat) : Option Image :=
  if checkImageFits 1 w h data.length then some (.gray w h data) else none

/-- `image::RgbImage::from_raw`: three bytes per pixel. -/
def rgbImageFromRaw (w h : Nat) (data : List Nat) : Option Image :=
  if checkImageFits 3 w h data.length then some (.rgb w h data) else none

/-! ## Image reconstruction (`scan.rs`, the `match params.format` block) -/

/-- Outcome of the reconstruction `match`: an image, an
`InvalidImageSize` error, or the `todo!()` panic on plane-only tags. -/
inductive ReconResult
  | ok (img : Image)
  | err (e : ScanError)
  | unimplemented
  deriving DecidableEq, Repr

/-- The reconstruction step of `scan` in `scan.rs` (lines 61–85): select a
strategy by `params.format`, build the image with `from_raw`, and report
`InvalidImageSize{width, height, buffer_size, pixel_size}` when `from_raw`
returns `None`; the `Red`/`Green`/`Blue` arms are `todo!()`. -/
def reconstruct (params : ScanParameters) (data : List Nat) : ReconResult :=
  let buffer_size := data.length
  match params.format with
  | .gray =>
    match grayImageFromRaw (asU32 params.pixels_per_line) (asU32 params.lines) data with
    | some img => .ok img
    | none => .err (.invalidImageSize (asU32 params.pixels_per_line)
        (asU32 params.lines) buffer_size (asU32 params.depth))
  | .rgb =>
    match rgbImageFromRaw (asU32 params.pixels_per_line) (asU32 params.lines) data with
    | some img => .ok img
    | none => .err (.invalidImageSize (asU32 params.pixels_per_line)
        (asU32 params.lines) buffer_size (asU32 params.depth))
  | .red => .unimplemented
  | .green => .unimplemented
  | .blue => .unimplemented

/-! ## Option Assignment collection (`scan.rs` line 38)

`options.into_iter().collect::<HashMap<_, _>>()` inserts the pairs in
caller order, each insert overwriting any previous value for the same
key; the resulting map is modelled extensionally as a lookup function
built by the same left fold of overwriting inserts. -/

/-- One `HashMap::insert`, as an update of the lookup function. -/
def mapInsert (m : ByteStr → Option String) (p : ByteStr × String) :
    ByteStr → Option String :=
  fun k => if k = p.1 then some p.2 else m k

/-- `collect::<HashMap<_, _>>()` over the caller's assignment sequence. -/
def collected (l : List (ByteStr × String)) : ByteStr → Option String :=
  l.foldl mapInsert (fun _ => none)

/-! ## Option application (`scan.rs` lines 39–57) -/

/-- Result of the `match opt.type_` conversion for one matched option:
a transport value, an abort (parse or NUL failure), or `continue`. -/
inductive ConvResult
  | val (v : DeviceOptionValue)
  | err (e : ScanError)
  | skip
  deriving DecidableEq, Repr

/-- The `match opt.type_` block of `scan.rs`: integer kinds parse the
text base-10 (abort on failure), string kinds wrap it as a C string
(abort on an embedded NUL), every other kind falls to `continue`. -/
def convertOptionValue (opt : DeviceOption) (v : String) : ConvResult :=
  match opt.type_ with
  | .int =>
    match parseI32 v with
    | some n => .val (.int n)
    | none => .err (.parseIntError v)
  | .string =>
    if containsNul v then .err (.nulError opt.name v) else .val (.string v)
  | _ => .skip

/-- The `for opt in device.get_options()` loop of `scan.rs`: walk the
capability registry in its own enumeration order, look each option's name
up in the collected assignment map, convert and `set_option` the matched
ones.  Returns the `set_option` calls actually issued (a failing call is
still issued) together with the error that aborted the loop, if any.
`setOk` is the driver's response to each issued call. -/
def applyOptionsGo (setOk : ByteStr → DeviceOptionValue → Bool)
    (registry : List DeviceOption) (m : ByteStr → Option String) :
    List (ByteStr × DeviceOptionValue) × Option ScanError :=
  match registry with
  | [] => ([], none)
  | opt :: rest =>
    match m opt.name with
    | none => applyOptionsGo setOk rest m
    | some v =>
      match convertOptionValue opt v with
      | .skip => applyOptionsGo setOk rest m
      | .err e => ([], some e)
      | .val dv =>
        if setOk opt.name dv then
          ((opt.name, dv) :: (applyOptionsGo setOk rest m).1,
            (applyOptionsGo setOk rest m).2)
        else
          ([(opt.name, dv)], some (.setOptionError opt.name))

/-! ## The scan pipeline (`scan.rs`, function `scan`)

The driver, filesystem and encoder are external collaborators; their
outcomes are fields of `ScanEnv`.  The pipeline records a trace of the
externally visible actions it performs:

* `openDevice`   — `d.open()` was attempted on the named descriptor;
* `createFile`   — the destination file was created/truncated;
* `setOption`    — a `set_option` call was issued;
* `startScan`    — `start_scan()` was called;
* `readData`     — `read_to_vec()` returned the sample buffer;
* `encode`       — the encoder consumed the reconstructed image. -/

inductive Effect
  | openDevice (name : ByteStr)
  | createFile
  | setOption (key : ByteStr) (v : DeviceOptionValue)
  | startScan
  | readData
  | encode
  deriving DecidableEq, Repr

/-- Environment of one `scan` run: the enumerated devices and the outcome
of every external call the pipeline makes. -/
structure ScanEnv where
  getDevicesOk : Bool
  devices : List Device
  openOk : Bool
  fileOk : Bool
  getOptionsOk : Bool
  registry : List DeviceOption
  setOk : ByteStr → DeviceOptionValue → Bool
  scanParams : Option ScanParameters
  readResult : Option (List Nat)
  encodeOk : Bool

/-- Overall outcome of `scan`: success, a propagated error, or the
`todo!()` panic of a plane-only layout tag. -/
inductive PipeOutcome
  | ok
  | err (e : ScanError)
  | unimplemented
  deriving DecidableEq, Repr

/-- Reconstruction and encoding (lines 61–88), after a successful
`start_scan` and `read_to_vec`: the effects of those two calls followed,
on success, by the encode. -/
def scanReconstructStage (env : ScanEnv) (params : ScanParameters)
    (data : List Nat) : List Effect × PipeOutcome :=
  match reconstruct params data with
  | .err e => ([Effect.startScan, Effect.readData], .err e)
  | .unimplemented => ([Effect.startScan, Effect.readData], .unimplemented)
  | .ok _ =>
    if env.encodeOk then
      ([Effect.startScan, Effect.readData, Effect.encode], .ok)
    else
      ([Effect.startScan, Effect.readData], .err .encodeError)

/-- `start_scan` and `read_to_vec` (lines 58–59) and what follows them. -/
def scanAcquireStage (env : ScanEnv) : List Effect × PipeOutcome :=
  match env.scanParams with
  | none => ([Effect.startScan], .err .startScanError)
  | some params =>
    match env.readResult with
    | none => ([Effect.startScan], .err .readError)
    | some data => scanReconstructStage env params data

/-- Stages of `scan` from `device.get_options()` on (lines 39–88):
option application followed, when it succeeds, by acquisition,
reconstruction and JPEG encoding. -/
def scanFromOptions (env : ScanEnv) (m : ByteStr → Option String) :
    List Effect × PipeOutcome :=
  if env.getOptionsOk = false then ([], .err .getOptionsError) else
  match applyOptionsGo env.setOk env.registry m with
  | (calls, some e) => (calls.map fun c => Effect.setOption c.1 c.2, .err e)
  | (calls, none) =>
    ((calls.map fun c => Effect.setOption c.1 c.2) ++ (scanAcquireStage env).1,
      (scanAcquireStage env).2)

/-- The whole `scan` function of `scan.rs`: enumerate devices, open the
first descriptor whose name equals the target byte-for-byte (or fail with
`CouldNotFindScanner` issuing no open call), create/truncate the
destination file, then run the remaining stages on the collected
assignment map. -/
def scan (env : ScanEnv) (name : ByteStr) (opts : List (ByteStr × String)) :
    List Effect × PipeOutcome :=
  if env.getDevicesOk = false then ([], .err .getDevicesError) else
  match env.devices.find? (fun d => d.name == name) with
  | none => ([], .err (.couldNotFindScanner name))
  | some d =>
    if env.openOk = false then ([Effect.openDevice d.name], .err .openError) else
    if env.fileOk = false then ([Effect.openDevice d.name], .err .fileError) else
    (Effect.openDevice d.name :: Effect.createFile ::
        (scanFromOptions env (collected opts)).1,
      (scanFromOptions env (collected opts)).2)

/-! ## ratatui `ListState` (embedded from ratatui's `list/state.rs`)

Only the `selected` index takes part in `handle_event`; the scroll
`offset` is never read or written there and is omitted.  The indices are
Rust `usize`, so the saturating arithmetic saturates at `2^64 - 1`. -/

/-- `usize::MAX`. -/
def USIZE_MAX : Nat := 2 ^ 64 - 1

/-- ratatui `ListState`, restricted to the `selected` field. -/
structure ListState where
  selected : Option Nat
  deriving DecidableEq, Repr

/-- `ListState::select_previous`:
`self.select(Some(self.selected.map_or(usize::MAX, |i| i.saturating_sub(1))))`. -/
def selectPrevious (s : ListState) : ListState :=
  ⟨some (match s.selected with
    | none => USIZE_MAX
    | some i => i - 1)⟩

/-- `ListState::select_next`:
`self.select(Some(self.selected.map_or(0, |i| i.saturating_add(1))))`. -/
def selectNext (s : ListState) : ListState :=
  ⟨some (match s.selected with
    | none => 0
    | some i => min (i + 1) USIZE_MAX)⟩

/-! ## TUI events and actions (`tui/mod.rs`) -/

/-- crossterm `KeyCode`, restricted to the codes the source matches on
plus a catch-all for every other key. -/
inductive KeyCode
  | up
  | down
  | enter
  | esc
  | other
  deriving DecidableEq, Repr

/-- crossterm `KeyEventKind`. -/
inductive KeyEventKind
  | press
  | release
  | repeat
  deriving DecidableEq, Repr

/-- crossterm `KeyEvent`, restricted to the fields the source matches. -/
structure KeyEvent where
  code : KeyCode
  kind : KeyEventKind
  deriving DecidableEq, Repr

/-- `Event` of `tui/mod.rs`. -/
inductive Event
  | key (k : KeyEvent)
  | resize (w h : Nat)
  | quit
  deriving DecidableEq, Repr

/-- `Action` of `tui/mod.rs`.  `SetActiveDevice` carries the picked
device's name; `to_string_lossy` is modelled as the identity on the byte
name, which no property below inspects. -/
inductive Action
  | quit
  | noop
  | setActiveDevice (name : ByteStr)
  deriving DecidableEq, Repr

/-! ## Device picker (`tui/device_picker.rs`) -/

/-- `DevicePicker` state: the enumerated devices (absent before `init`)
and the list cursor. -/
structure DevicePicker where
  available_devices : Option (List Device)
  list_state : ListState
  deriving DecidableEq, Repr

/-- `DevicePicker::handle_event` (lines 49–78): Up/Down move the cursor
via `select_previous`/`select_next`, Enter emits `SetActiveDevice` with
the currently highlighted device's name when the stored index denotes an
existing device, everything else is ignored; every arm but Up/Down leaves
the state unchanged and every arm but a successful Enter returns `Noop`. -/
def devicePickerHandleEvent (p : DevicePicker) (event : Option Event) :
    DevicePicker × Action :=
  match event with
  | some (.key ⟨.up, _⟩) => ({ p with list_state := selectPrevious p.list_state }, .noop)
  | some (.key ⟨.down, _⟩) => ({ p with list_state := selectNext p.list_state }, .noop)
  | some (.key ⟨.enter, _⟩) =>
    match p.available_devices.bind
        (fun d => p.list_state.selected.bind fun i => d.get? i) with
    | some device => (p, .setActiveDevice device.name)
    | none => (p, .noop)
  | _ => (p, .noop)

/-! ## Root application (`tui/mod.rs`, `App`) -/

/-- `AppConfig`: UI session state, at most one active device name. -/
structure AppConfig where
  active_device : Option ByteStr
  deriving DecidableEq, Repr

/-- The root `App`: session config plus the device-picker component. -/
structure App where
  config : AppConfig
  device_picker : DevicePicker
  deriving DecidableEq, Repr

/-- `App::handle_action`: interpret `SetActiveDevice` by mutating the
session state (yielding no action to propagate); pass every other action
through unexamined. -/
def appHandleAction (a : App) (action : Action) : App × Option Action :=
  match action with
  | .setActiveDevice device => ({ a with config := ⟨some device⟩ }, none)
  | act => (a, some act)

/-- `App::handle_event` (lines 125–143): a pressed Esc returns `Quit`
before anything else; only when no active device is set is the event
delegated to the device picker, whose action `handle_action` interprets;
otherwise the result is `Noop`.  The boolean records whether the picker's
`handle_event` was invoked on this event. -/
def appHandleEvent (a : App) (event : Event) : App × Action × Bool :=
  match event with
  | .key ⟨.esc, .press⟩ => (a, .quit, false)
  | _ =>
    match a.config.active_device with
    | some _ => (a, .noop, false)
    | none =>
      let r := devicePickerHandleEvent a.device_picker (some event)
      let a1 : App := { a with device_picker := r.1 }
      match appHandleAction a1 r.2 with
      | (a2, some act) => (a2, act, true)
      | (a2, none) => (a2, .noop, true)

/-- Fold `App::handle_event` over a sequence of input events, recording
whether any of them was delegated to the device picker. -/
def appHandleEvents (a : App) (es : List Event) : App × Bool :=
  match es with
  | [] => (a, false)
  | e :: rest =>
    let r := appHandleEvent a e
    let s := appHandleEvents r.1 rest
    (s.1, r.2.2 || s.2)

/-! ## Terminal raw-mode lifecycle (`tui/mod.rs`, function `tui`)

The function's straight-line structure: build the `Tui`, enable raw
mode, enable bracketed paste (each `?`-propagating on failure), run both
threads to completion, disable bracketed paste, disable raw mode (again
`?`-propagating), then re-raise a TUI-thread panic or combine the two
thread results via `sane_handler_res.or(res)?`.  Terminal state is a pair
of flags; a failing enable/disable call leaves the flags unchanged. -/

/-- Process-wide terminal state. -/
structure TermState where
  rawMode : Bool
  bracketedPaste : Bool
  deriving DecidableEq, Repr

/-- Result of joining the TUI thread. -/
inductive ThreadOutcome
  | ok
  | err
  | panic
  deriving DecidableEq, Repr

/-- Outcomes of the external calls made by `tui`. -/
structure TuiEnv where
  newOk : Bool
  enableRawOk : Bool
  enableBpOk : Bool
  disableBpOk : Bool
  disableRawOk : Bool
  tuiThread : ThreadOutcome
  saneOk : Bool
  deriving DecidableEq, Repr

/-- How `tui` itself terminates. -/
inductive TuiResult
  | ok
  | err
  | panicked
  deriving DecidableEq, Repr

/-- The `tui` entry point (lines 36–57), as a function from call outcomes
to the final terminal state and the way the function terminates. -/
def tuiRun (env : TuiEnv) : TermState × TuiResult :=
  let s0 : TermState := ⟨false, false⟩
  if env.newOk = false then (s0, .err) else
  if env.enableRawOk = false then (s0, .err) else
  let s1 : TermState := ⟨true, false⟩
  if env.enableBpOk = false then (s1, .err) else
  let s2 : TermState := ⟨true, true⟩
  if env.disableBpOk = false then (s2, .err) else
  let s3 : TermState := ⟨true, false⟩
  if env.disableRawOk = false then (s3, .err) else
  let s4 : TermState := ⟨false, false⟩
  match env.tuiThread with
  | .panic => (s4, .panicked)
  | .ok => (s4, .ok)
  | .err => (s4, if env.saneOk then .ok else .err)

/-! ## Helper lemmas about the image-size check -/

theorem asU32_lt (i : Int) : asU32 i < 2 ^ 32 := by
  unfold asU32
  have h1 : 0 ≤ i % (2 ^ 32 : Int) := Int.emod_nonneg i (by norm_num)
  have h2 : i % (2 ^ 32 : Int) < 2 ^ 32 := Int.emod_lt_of_pos i (by norm_num)
  omega

theorem mul_lt_u64 {w h : Nat} (hw : w < 2 ^ 32) (hh : h < 2 ^ 32) :
    w * h < 2 ^ 64 := by
  have h1 : w * h ≤ (2 ^ 32 - 1) * (2 ^ 32 - 1) :=
    Nat.mul_le_mul (by omega) (by omega)
  have h2 : (2 ^ 32 - 1) * (2 ^ 32 - 1) < 2 ^ 64 := by norm_num
  omega

theorem checkImageFits_one {w h : Nat} (len : Nat) (hw : w < 2 ^ 32)
    (hh : h < 2 ^ 32) : checkImageFits 1 w h len = true ↔ w * h ≤ len := by
  have hwlt : w < 18446744073709551616 := by omega
  have hwh : w * h < 18446744073709551616 := by
    have := mul_lt_u64 hw hh; omega
  simp [checkImageFits, imageBufferLen, checkedMulU64, hwlt, hwh]

theorem checkImageFits_three {w h : Nat} (len : Nat) (hw : w < 2 ^ 32)
    (hh : h < 2 ^ 32) (hlen : len < 2 ^ 64) :
    checkImageFits 3 w h len = true ↔ w * h * 3 ≤ len := by
  have h3w : 3 * w < 18446744073709551616 := by omega
  have heq : 3 * w * h = w * h * 3 := by ring
  by_cases hwh : 3 * w * h < 18446744073709551616
  · have hwh2 : w * h * 3 < 18446744073709551616 := by omega
    simp [checkImageFits, imageBufferLen, checkedMulU64, h3w, hwh, heq, hwh2]
  · simp [checkImageFits, imageBufferLen, checkedMulU64, h3w, hwh]
    omega

/-- Reconstruction of a monochrome frame as a single conditional. -/
theorem reconstruct_gray (lf : Bool) (bpl ppl ln depth : Int) (data : List Nat) :
    reconstruct ⟨.gray, lf, bpl, ppl, ln, depth⟩ data =
      if checkImageFits 1 (asU32 ppl) (asU32 ln) data.length
      then .ok (.gray (asU32 ppl) (asU32 ln) data)
      else .err (.invalidImageSize (asU32 ppl) (asU32 ln) data.length (asU32 depth)) := by
  by_cases hf : checkImageFits 1 (asU32 ppl) (asU32 ln) data.length <;>
    simp [reconstruct, grayImageFromRaw, hf]

/-- Reconstruction of an RGB-interleaved frame as a single conditional. -/
theorem reconstruct_rgb (lf : Bool) (bpl ppl ln depth : Int) (data : List Nat) :
    reconstruct ⟨.rgb, lf, bpl, ppl, ln, depth⟩ data =
      if checkImageFits 3 (asU32 ppl) (asU32 ln) data.length
      then .ok (.rgb (asU32 ppl) (asU32 ln) data)
      else .err (.invalidImageSize (asU32 ppl) (asU32 ln) data.length (asU32 depth)) := by
  by_cases hf : checkImageFits 3 (asU32 ppl) (asU32 ln) data.length <;>
    simp [reconstruct, rgbImageFromRaw, hf]

/-! ## Claim C1 -/

/-- Claim C1 counterexample: with width=2, height=2, monochrome and a
5-byte buffer (length not equal to 2 × 2 × 1), reconstruction succeeds,
whereas the claim states every length mismatch fails with
`InvalidImageSize`; `from_raw` only rejects buffers that are too small. -/
theorem c1_counterexample :
    (5 ≠ 2 * 2 * 1) ∧
    reconstruct ⟨.gray, false, 0, 2, 2, 8⟩ [0, 0, 0, 0, 0] =
      .ok (.gray 2 2 [0, 0, 0, 0, 0]) := by
  exact ⟨by decide, by decide⟩

/-- Claim C1 (amended): for monochrome and RGB-interleaved layouts,
reconstruction fails with `InvalidImageSize` carrying the reported
width, height, buffer length and declared depth exactly when the buffer
is SHORTER than width × height × (1 for monochrome, 3 for RGB), and
succeeds whenever the buffer is at least that long — in particular when
the length matches exactly.  (The buffer-length bound `< 2^64` is the
range of the Rust `usize` length.) -/
theorem c1_amended (lf : Bool) (bpl ppl ln depth : Int) (data : List Nat)
    (hlen : data.length < 2 ^ 64) :
    (reconstruct ⟨.gray, lf, bpl, ppl, ln, depth⟩ data =
        .err (.invalidImageSize (asU32 ppl) (asU32 ln) data.length (asU32 depth)) ↔
      data.length < asU32 ppl * asU32 ln * 1) ∧
    (asU32 ppl * asU32 ln * 1 ≤ data.length →
      reconstruct ⟨.gray, lf, bpl, ppl, ln, depth⟩ data =
        .ok (.gray (asU32 ppl) (asU32 ln) data)) ∧
    (reconstruct ⟨.rgb, lf, bpl, ppl, ln, depth⟩ data =
        .err (.invalidImageSize (asU32 ppl) (asU32 ln) data.length (asU32 depth)) ↔
      data.length < asU32 ppl * asU32 ln * 3) ∧
    (asU32 ppl * asU32 ln * 3 ≤ data.length →
      reconstruct ⟨.rgb, lf, bpl, ppl, ln, depth⟩ data =
        .ok (.rgb (asU32 ppl) (asU32 ln) data)) := by
  have hw := asU32_lt ppl
  have hh := asU32_lt ln
  have hg := checkImageFits_one (w := asU32 ppl) (h := asU32 ln) data.length hw hh
  have hr := checkImageFits_three (w := asU32 ppl) (h := asU32 ln) data.length hw hh hlen
  refine ⟨?_, ?_, ?_, ?_⟩
  · rw [reconstruct_gray]
    by_cases hfg : checkImageFits 1 (asU32 ppl) (asU32 ln) data.length
    · rw [if_pos hfg]
      have hle := hg.mp hfg
      exact ⟨fun hco => ReconResult.noConfusion hco, fun hlt => absurd hlt (by omega)⟩
    · rw [if_neg hfg]
      have hnle : ¬ asU32 ppl * asU32 ln ≤ data.length := fun hx => hfg (hg.mpr hx)
      exact ⟨fun _ => by omega, fun _ => rfl⟩
  · intro hle1
    rw [reconstruct_gray, if_pos (hg.mpr (by omega))]
  · rw [reconstruct_rgb]
    by_cases hfr : checkImageFits 3 (asU32 ppl) (asU32 ln) data.length
    · rw [if_pos hfr]
      have hle := hr.mp hfr
      exact ⟨fun hco => ReconResult.noConfusion hco, fun hlt => absurd hlt (by omega)⟩
    · rw [if_neg hfr]
      have hnle : ¬ asU32 ppl * asU32 ln * 3 ≤ data.length := fun hx => hfr (hr.mpr hx)
      exact ⟨fun _ => by omega, fun _ => rfl⟩
  · intro hle3
    rw [reconstruct_rgb, if_pos (hr.mpr hle3)]

/-- Claim C1 (amended) witness: for width=2, height=2, monochrome, a
3-byte buffer fails with `InvalidImageSize 2 2 3 8` because 3 < 4. -/
theorem c1_amended_witness :
    ([0, 0, 0] : List Nat).length < 2 ^ 64 ∧
    (reconstruct ⟨.gray, false, 0, 2, 2, 8⟩ [0, 0, 0] =
        .err (.invalidImageSize (asU32 2) (asU32 2) ([0, 0, 0] : List Nat).length (asU32 8)) ↔
      ([0, 0, 0] : List Nat).length < asU32 2 * asU32 2 * 1) :=
  ⟨by decide, (c1_amended false 0 2 2 8 [0, 0, 0] (by decide)).1⟩

/-! ## Claim C2 -/

/-- The left fold of overwriting inserts looks up to the last matching
entry, falling back to the initial map. -/
theorem foldl_mapInsert (l : List (ByteStr × String)) (m0 : ByteStr → Option String)
    (k : ByteStr) :
    l.foldl mapInsert m0 k =
      ((l.reverse.find? fun p => p.1 == k).map Prod.snd).or (m0 k) := by
  induction l generalizing m0 with
  | nil => rfl
  | cons p rest ih =>
    simp only [List.foldl_cons, List.reverse_cons, List.find?_append]
    rw [ih]
    cases hfind : rest.reverse.find? fun q => q.1 == k with
    | some q => simp [Option.or]
    | none =>
      by_cases hk : p.1 = k
      · have hbeq : (p.1 == k) = true := by simp [hk]
        simp [mapInsert, Option.or, List.find?, hbeq, hk]
      · have hbeq : (p.1 == k) = false := by simp [hk]
        have hk2 : ¬ k = p.1 := fun h => hk h.symm
        simp [mapInsert, Option.or, List.find?, hbeq, hk2]

/-- The collected assignment map returns the value of the last occurring
entry with the looked-up key. -/
theorem collected_eq_last (l : List (ByteStr × String)) (k : ByteStr) :
    collected l k = (l.reverse.find? fun p => p.1 == k).map Prod.snd := by
  rw [collected, foldl_mapInsert]
  cases (l.reverse.find? fun p => p.1 == k).map Prod.snd <;> rfl

/-- Every `set_option` call issued by the option loop takes its value
from the assignment map's entry for the matched option's name. -/
theorem applyOptionsGo_mem (setOk : ByteStr → DeviceOptionValue → Bool)
    (registry : List DeviceOption) (m : ByteStr → Option String)
    (k : ByteStr) (dv : DeviceOptionValue)
    (hmem : (k, dv) ∈ (applyOptionsGo setOk registry m).1) :
    ∃ opt ∈ registry, opt.name = k ∧
      ∃ v, m k = some v ∧ convertOptionValue opt v = .val dv := by
  induction registry with
  | nil => exact absurd hmem (by simp [applyOptionsGo])
  | cons opt rest ih =>
    rw [applyOptionsGo] at hmem
    cases hm : m opt.name with
    | none =>
      simp only [hm] at hmem
      obtain ⟨o, ho, hrest⟩ := ih hmem
      exact ⟨o, List.mem_cons_of_mem _ ho, hrest⟩
    | some v =>
      simp only [hm] at hmem
      cases hconv : convertOptionValue opt v with
      | skip =>
        simp only [hconv] at hmem
        obtain ⟨o, ho, hrest⟩ := ih hmem
        exact ⟨o, List.mem_cons_of_mem _ ho, hrest⟩
      | err e =>
        simp only [hconv] at hmem
        exact absurd hmem (by simp)
      | val dv1 =>
        simp only [hconv] at hmem
        by_cases hs : setOk opt.name dv1 = true
        · rw [if_pos hs] at hmem
          have hmem2 : (k, dv) ∈ (opt.name, dv1) :: (applyOptionsGo setOk rest m).1 := hmem
          rcases List.mem_cons.mp hmem2 with heq | hmem1
          · injection heq with hk hdv
            refine ⟨opt, List.mem_cons_self .., hk.symm, v, ?_, ?_⟩
            · rw [hk]; exact hm
            · rw [hconv, hdv]
          · obtain ⟨o, ho, hrest⟩ := ih hmem1
            exact ⟨o, List.mem_cons_of_mem _ ho, hrest⟩
        · rw [if_neg hs] at hmem
          have hmem2 : (k, dv) ∈ [(opt.name, dv1)] := hmem
          rcases List.mem_cons.mp hmem2 with heq | hmem1
          · injection heq with hk hdv
            refine ⟨opt, List.mem_cons_self .., hk.symm, v, ?_, ?_⟩
            · rw [hk]; exact hm
            · rw [hconv, hdv]
          · exact absurd hmem1 (by simp)

/-- Claim C2: for every assignment sequence, whatever value the option
loop applies for a key is derived (by the kind-directed conversion) from
the LAST occurring entry with that key in the caller's sequence, for
every capability registry and every driver response — i.e. last-write-wins,
independent of the registry's enumeration order. -/
theorem c2_last_write_wins (l : List (ByteStr × String))
    (registry : List DeviceOption) (setOk : ByteStr → DeviceOptionValue → Bool)
    (k : ByteStr) (dv : DeviceOptionValue)
    (hmem : (k, dv) ∈ (applyOptionsGo setOk registry (collected l)).1) :
    ∃ v, (l.reverse.find? fun p => p.1 == k).map Prod.snd = some v ∧
      ∃ opt ∈ registry, opt.name = k ∧ convertOptionValue opt v = .val dv := by
  obtain ⟨opt, hopt, hname, v, hv, hconv⟩ :=
    applyOptionsGo_mem setOk registry (collected l) k dv hmem
  rw [collected_eq_last] at hv
  exact ⟨v, hv, opt, hopt, hname, hconv⟩

/-- Claim C2 witness: with entries `([1], "1")` then `([1], "2")`, the
issued call carries the integer 2 parsed from the LAST entry. -/
theorem c2_last_write_wins_witness :
    (([1], DeviceOptionValue.int 2) ∈
      (applyOptionsGo (fun _ _ => true) [⟨[1], "t", .int⟩]
        (collected [([1], "1"), ([1], "2")])).1) ∧
    ∃ v, (([([1], "1"), ([1], "2")] : List (ByteStr × String)).reverse.find?
        (fun p => p.1 == [1])).map Prod.snd = some v ∧
      ∃ opt ∈ ([⟨[1], "t", .int⟩] : List DeviceOption), opt.name = [1] ∧
        convertOptionValue opt v = .val (.int 2) :=
  ⟨by decide,
    c2_last_write_wins [([1], "1"), ([1], "2")] [⟨[1], "t", .int⟩]
      (fun _ _ => true) [1] (.int 2) (by decide)⟩

/-! ## Claim C3 -/

/-- The spec's `InvalidValue` category (§4.1 of the design): the errors
produced by a failed base-10 parse of an integer-kind value or by an
embedded NUL byte in a string-kind value.  (The source has no variant of
this name; these failures surface as wrapped parse/NUL diagnostics.) -/
def isInvalidValue : ScanError → Bool
  | .parseIntError _ => true
  | .nulError _ _ => true
  | _ => false

/-- An assignment entry the claim calls invalid: the effective value for
an integer-kind option fails the base-10 parse, or the effective value
for a string-kind option contains an embedded NUL byte. -/
def badAssignment (m : ByteStr → Option String) (opt : DeviceOption) : Bool :=
  match m opt.name with
  | none => false
  | some v =>
    (opt.type_ == .int && (parseI32 v).isNone) ||
      (opt.type_ == .string && containsNul v)

/-- A conversion abort is always a parse or NUL failure. -/
theorem convertOptionValue_err_invalid (opt : DeviceOption) (v : String)
    (e : ScanError) (hconv : convertOptionValue opt v = .err e) :
    isInvalidValue e = true := by
  unfold convertOptionValue at hconv
  cases ht : opt.type_ <;> rw [ht] at hconv
  case int =>
    cases hp : parseI32 v <;> rw [hp] at hconv
    · injection hconv with he
      rw [← he]; rfl
    · exact absurd hconv (by simp)
  case string =>
    by_cases hn : containsNul v
    · rw [if_pos hn] at hconv
      injection hconv with he
      rw [← he]; rfl
    · rw [if_neg hn] at hconv
      exact absurd hconv (by simp)
  all_goals exact absurd hconv (by simp)

/-- When every issued `set_option` call succeeds, any error of the
option loop is a parse or NUL failure. -/
theorem applyOptionsGo_err_invalid (registry : List DeviceOption)
    (m : ByteStr → Option String) (e : ScanError)
    (herr : (applyOptionsGo (fun _ _ => true) registry m).2 = some e) :
    isInvalidValue e = true := by
  induction registry with
  | nil => exact absurd herr (by simp [applyOptionsGo])
  | cons opt rest ih =>
    rw [applyOptionsGo] at herr
    cases hm : m opt.name with
    | none => simp only [hm] at herr; exact ih herr
    | some v =>
      simp only [hm] at herr
      cases hconv : convertOptionValue opt v with
      | skip => simp only [hconv] at herr; exact ih herr
      | err e1 =>
        simp only [hconv] at herr
        have : e1 = e := by injection herr
        exact this ▸ convertOptionValue_err_invalid opt v e1 hconv
      | val dv1 =>
        simp only [hconv, if_pos] at herr
        exact ih herr

/-- Conversion of an unparseable integer-kind value aborts. -/
theorem convertOptionValue_int_none (opt : DeviceOption) (v : String)
    (ht : opt.type_ = .int) (hp : parseI32 v = none) :
    convertOptionValue opt v = .err (.parseIntError v) := by
  unfold convertOptionValue
  rw [ht, hp]

/-- Conversion of a NUL-carrying string-kind value aborts. -/
theorem convertOptionValue_string_nul (opt : DeviceOption) (v : String)
    (ht : opt.type_ = .string) (hn : containsNul v = true) :
    convertOptionValue opt v = .err (.nulError opt.name v) := by
  unfold convertOptionValue
  rw [ht, if_pos hn]

/-- A bad entry in scope of the registry forces the option loop (with an
always-succeeding driver) to abort with some error. -/
theorem applyOptionsGo_bad_aborts (registry : List DeviceOption)
    (m : ByteStr → Option String)
    (hbad : ∃ opt ∈ registry, badAssignment m opt = true) :
    ((applyOptionsGo (fun _ _ => true) registry m).2).isSome = true := by
  induction registry with
  | nil => simp at hbad
  | cons opt rest ih =>
    rcases hbad with ⟨o, ho, hb⟩
    rcases List.mem_cons.mp ho with rfl | ho1
    · cases hm : m o.name with
      | none => rw [badAssignment, hm] at hb; exact absurd hb (by simp)
      | some v =>
        rw [badAssignment, hm] at hb
        simp only [Bool.or_eq_true, Bool.and_eq_true, beq_iff_eq,
          Option.isNone_iff_eq_none] at hb
        rw [applyOptionsGo]
        simp only [hm]
        rcases hb with ⟨ht, hp⟩ | ⟨ht, hn⟩
        · simp [convertOptionValue_int_none o v ht hp]
        · simp [convertOptionValue_string_nul o v ht hn]
    · rw [applyOptionsGo]
      cases hm : m opt.name with
      | none => simp only [hm]; exact ih ⟨o, ho1, hb⟩
      | some v =>
        simp only [hm]
        cases hconv : convertOptionValue opt v with
        | skip => simp only [hconv]; exact ih ⟨o, ho1, hb⟩
        | err e1 => simp [hconv]
        | val dv1 => simp [hconv]; exact ih ⟨o, ho1, hb⟩

/-- No `startScan` effect hides among issued `set_option` effects. -/
theorem startScan_not_mem_setOption_map
    (calls : List (ByteStr × DeviceOptionValue)) :
    Effect.startScan ∉ calls.map fun c => Effect.setOption c.1 c.2 := by
  intro hmem
  rcases List.mem_map.mp hmem with ⟨c, _, hc⟩
  exact Effect.noConfusion hc

/-- Shape of a `scan` run that finds its device, opens it and creates
the destination file: the trace starts with the open and the file
creation, and everything else comes from the later stages. -/
theorem scan_shape (env : ScanEnv) (name : ByteStr)
    (opts : List (ByteStr × String)) (d : Device)
    (hdev : env.getDevicesOk = true)
    (hfind : env.devices.find? (fun x => x.name == name) = some d)
    (hopen : env.openOk = true) (hfile : env.fileOk = true) :
    scan env name opts =
      (Effect.openDevice d.name :: Effect.createFile ::
          (scanFromOptions env (collected opts)).1,
        (scanFromOptions env (collected opts)).2) := by
  rw [scan, if_neg (by simp [hdev])]
  simp only [hfind]
  rw [if_neg (by simp [hopen]), if_neg (by simp [hfile])]

/-- When the option loop aborts, `scanFromOptions` reports that error
and its trace is exactly the issued `set_option` calls. -/
theorem scanFromOptions_err (env : ScanEnv) (m : ByteStr → Option String)
    (e : ScanError) (hgo : env.getOptionsOk = true)
    (herr : (applyOptionsGo env.setOk env.registry m).2 = some e) :
    scanFromOptions env m =
      ((applyOptionsGo env.setOk env.registry m).1.map
          fun c => Effect.setOption c.1 c.2,
        .err e) := by
  rw [scanFromOptions, if_neg (by simp [hgo])]
  rcases happ : applyOptionsGo env.setOk env.registry m with ⟨calls, oerr⟩
  rw [happ] at herr
  replace herr : oerr = some e := herr
  subst herr
  simp

/-- Claim C3: when the device is found and opened, the file is created,
the registry is enumerated, and the driver accepts every issued call —
so that nothing else can fail first — an assignment whose effective value
is unparseable for an integer-kind option, or contains an embedded NUL
for a string-kind option, makes the pipeline fail with an invalid-value
error (the spec's `InvalidValue`) and `start_scan` is never invoked. -/
theorem c3_invalid_value_before_acquisition (env : ScanEnv) (name : ByteStr)
    (opts : List (ByteStr × String)) (d : Device)
    (hdev : env.getDevicesOk = true)
    (hfind : env.devices.find? (fun x => x.name == name) = some d)
    (hopen : env.openOk = true) (hfile : env.fileOk = true)
    (hgo : env.getOptionsOk = true)
    (hset : env.setOk = fun _ _ => true)
    (hbad : ∃ opt ∈ env.registry, badAssignment (collected opts) opt = true) :
    ∃ e, (scan env name opts).2 = .err e ∧ isInvalidValue e = true ∧
      Effect.startScan ∉ (scan env name opts).1 := by
  have habort := applyOptionsGo_bad_aborts env.registry (collected opts) hbad
  rw [← hset] at habort
  rcases Option.isSome_iff_exists.mp habort with ⟨e, he⟩
  have hinv : isInvalidValue e = true := by
    rw [hset] at he
    exact applyOptionsGo_err_invalid env.registry (collected opts) e he
  have hsfo := scanFromOptions_err env (collected opts) e hgo he
  have hshape := scan_shape env name opts d hdev hfind hopen hfile
  refine ⟨e, ?_, hinv, ?_⟩
  · rw [hshape, hsfo]
  · rw [hshape, hsfo]
    simp only [List.mem_cons]
    intro hmem
    rcases hmem with h | h | h
    · exact Effect.noConfusion h
    · exact Effect.noConfusion h
    · exact startScan_not_mem_setOption_map _ h

/-- Claim C3 witness: one device `[1]`, a registry with the integer-kind
option `[2]`, and the assignment `([2], "x")` whose value fails the
base-10 parse: the pipeline errors with an invalid-value error and the
trace never reaches `start_scan`. -/
theorem c3_invalid_value_before_acquisition_witness :
    (∃ opt ∈ (⟨true, [⟨[1]⟩], true, true, true, [⟨[2], "t", .int⟩],
        fun _ _ => true, none, none, true⟩ : ScanEnv).registry,
      badAssignment (collected [([2], "x")]) opt = true) ∧
    ∃ e, (scan ⟨true, [⟨[1]⟩], true, true, true, [⟨[2], "t", .int⟩],
        fun _ _ => true, none, none, true⟩ [1] [([2], "x")]).2 = .err e ∧
      isInvalidValue e = true ∧
      Effect.startScan ∉ (scan ⟨true, [⟨[1]⟩], true, true, true,
        [⟨[2], "t", .int⟩], fun _ _ => true, none, none, true⟩
        [1] [([2], "x")]).1 :=
  ⟨by decide,
    c3_invalid_value_before_acquisition
      ⟨true, [⟨[1]⟩], true, true, true, [⟨[2], "t", .int⟩],
        fun _ _ => true, none, none, true⟩
      [1] [([2], "x")] ⟨[1]⟩ (by decide) (by decide) (by decide) (by decide)
      (by decide) rfl (by decide)⟩

/-! ## Claim C4 -/

/-- Claim C4: device lookup opens the first enumerated descriptor whose
name equals the target byte-for-byte (the trace starts with that open);
when no descriptor matches, the operation fails with
`CouldNotFindScanner` carrying the requested name and the trace is empty,
i.e. no open call is attempted on any descriptor. -/
theorem c4_lookup_contract (env : ScanEnv) (name : ByteStr)
    (opts : List (ByteStr × String)) (hdev : env.getDevicesOk = true) :
    ((∀ d ∈ env.devices, d.name ≠ name) →
      scan env name opts = ([], .err (.couldNotFindScanner name))) ∧
    (∀ d, env.devices.find? (fun x => x.name == name) = some d →
      (scan env name opts).1.head? = some (.openDevice d.name)) := by
  constructor
  · intro hnone
    have hfind : env.devices.find? (fun x => x.name == name) = none := by
      rw [List.find?_eq_none]
      intro x hx
      simp only [beq_iff_eq]
      exact hnone x hx
    rw [scan, if_neg (by simp [hdev])]
    simp only [hfind]
  · intro d hfind
    rw [scan, if_neg (by simp [hdev])]
    simp only [hfind]
    by_cases ho : env.openOk = false
    · rw [if_pos ho]; rfl
    · rw [if_neg ho]
      by_cases hf : env.fileOk = false
      · rw [if_pos hf]; rfl
      · rw [if_neg hf]; rfl

/-- Claim C4 witness: with a single device named `[9]`, looking up `[1]`
fails with `CouldNotFindScanner [1]` and performs no open attempt. -/
theorem c4_lookup_contract_witness :
    (∀ d ∈ (⟨true, [⟨[9]⟩], true, true, true, [], fun _ _ => true, none,
        none, true⟩ : ScanEnv).devices, d.name ≠ [1]) ∧
    scan ⟨true, [⟨[9]⟩], true, true, true, [], fun _ _ => true, none,
        none, true⟩ [1] [] = ([], .err (.couldNotFindScanner [1])) :=
  ⟨by decide,
    (c4_lookup_contract ⟨true, [⟨[9]⟩], true, true, true, [],
      fun _ _ => true, none, none, true⟩ [1] [] (by decide)).1 (by decide)⟩

/-! ## Claim C5 -/

/-- Spec-side characterization of §4.1 and claim C5: walking the registry
in its own enumeration order, an option yields a `set_option` call
exactly when the assignment map has an entry for its name and the
kind-directed conversion produces a transport value; all other options
(unmatched names, non-int/string kinds) yield nothing. -/
def specOptionCall (m : ByteStr → Option String) (opt : DeviceOption) :
    Option (ByteStr × DeviceOptionValue) :=
  match m opt.name with
  | none => none
  | some v =>
    match convertOptionValue opt v with
    | .val dv => some (opt.name, dv)
    | _ => none

/-- The option loop only evaluates the assignment map at registry names. -/
theorem applyOptionsGo_congr (setOk : ByteStr → DeviceOptionValue → Bool)
    (registry : List DeviceOption) (m m1 : ByteStr → Option String)
    (hagree : ∀ opt ∈ registry, m opt.name = m1 opt.name) :
    applyOptionsGo setOk registry m = applyOptionsGo setOk registry m1 := by
  induction registry with
  | nil => rfl
  | cons opt rest ih =>
    have hrest := ih fun o ho => hagree o (List.mem_cons_of_mem _ ho)
    rw [applyOptionsGo, applyOptionsGo, hagree opt (List.mem_cons_self ..)]
    cases hm : m1 opt.name with
    | none => simp only [hm, hrest]
    | some v =>
      simp only [hm]
      cases hconv : convertOptionValue opt v with
      | skip => simp only [hconv, hrest]
      | err e => simp only [hconv]
      | val dv => simp only [hconv, hrest]

/-- Appending one entry only changes the collected map at its key. -/
theorem collected_append_single (l : List (ByteStr × String)) (k : ByteStr)
    (v : String) (q : ByteStr) :
    collected (l ++ [(k, v)]) q = if q = k then some v else collected l q := by
  rw [collected, List.foldl_append]
  rfl

/-- When the loop finishes without error, the issued calls are exactly
the registry-ordered `filterMap` of the spec-side per-option call. -/
theorem applyOptionsGo_ok_calls (setOk : ByteStr → DeviceOptionValue → Bool)
    (registry : List DeviceOption) (m : ByteStr → Option String)
    (hok : (applyOptionsGo setOk registry m).2 = none) :
    (applyOptionsGo setOk registry m).1 = registry.filterMap (specOptionCall m) := by
  induction registry with
  | nil => rfl
  | cons opt rest ih =>
    rw [applyOptionsGo] at hok ⊢
    rw [List.filterMap_cons]
    cases hm : m opt.name with
    | none =>
      have hspec : specOptionCall m opt = none := by rw [specOptionCall, hm]
      simp only [hm] at hok ⊢
      simp only [hspec]
      exact ih hok
    | some v =>
      have hspec0 : specOptionCall m opt =
          match convertOptionValue opt v with
          | .val dv => some (opt.name, dv)
          | _ => none := by rw [specOptionCall, hm]
      simp only [hm] at hok ⊢
      cases hconv : convertOptionValue opt v with
      | skip =>
        have hspec : specOptionCall m opt = none := by rw [hspec0, hconv]
        simp only [hconv] at hok ⊢
        simp only [hspec]
        exact ih hok
      | err e =>
        simp only [hconv] at hok
        exact absurd (show some e = none from hok) (by simp)
      | val dv =>
        have hspec : specOptionCall m opt = some (opt.name, dv) := by
          rw [hspec0, hconv]
        simp only [hconv] at hok ⊢
        by_cases hs : setOk opt.name dv = true
        · rw [if_pos hs] at hok ⊢
          replace hok : (applyOptionsGo setOk rest m).2 = none := hok
          simp only [hspec]
          exact congrArg (fun t => (opt.name, dv) :: t) (ih hok)
        · rw [if_neg hs] at hok
          exact absurd (show some (ScanError.setOptionError opt.name) = none
            from hok) (by simp)

/-- An assignment entry whose key matches no registry option changes
nothing: same calls, same (absence of) error. -/
theorem applyOptionsGo_unknown_key (setOk : ByteStr → DeviceOptionValue → Bool)
    (registry : List DeviceOption) (l : List (ByteStr × String))
    (k : ByteStr) (v : String) (hunk : ∀ opt ∈ registry, opt.name ≠ k) :
    applyOptionsGo setOk registry (collected (l ++ [(k, v)])) =
      applyOptionsGo setOk registry (collected l) := by
  apply applyOptionsGo_congr
  intro opt hopt
  rw [collected_append_single, if_neg (hunk opt hopt)]

/-- An option of any kind other than integer or string is skipped,
matched or not, without error. -/
theorem applyOptionsGo_skip_kind (setOk : ByteStr → DeviceOptionValue → Bool)
    (m : ByteStr → Option String) (opt : DeviceOption)
    (rest : List DeviceOption) (h1 : opt.type_ ≠ .int)
    (h2 : opt.type_ ≠ .string) :
    applyOptionsGo setOk (opt :: rest) m = applyOptionsGo setOk rest m := by
  rw [applyOptionsGo]
  cases hm : m opt.name with
  | none => rfl
  | some v =>
    have hconv : convertOptionValue opt v = .skip := by
      unfold convertOptionValue
      cases ht : opt.type_ <;> try rfl
      · exact absurd ht h1
      · exact absurd ht h2
    simp only [hconv]

/-- Claim C5: on a run whose option loop finishes without error, the
`set_option` calls issued are exactly the registry-order `filterMap` of
the matched, convertible int/string options (so order follows the
registry, and only such options produce calls); moreover an assignment
entry matching no registry option is silently ignored without any error,
and a matched option of any other kind (boolean, group, …) is skipped
rather than rejected. -/
theorem c5_registry_order_permissive (setOk : ByteStr → DeviceOptionValue → Bool)
    (registry : List DeviceOption) (m : ByteStr → Option String)
    (hok : (applyOptionsGo setOk registry m).2 = none) :
    (applyOptionsGo setOk registry m).1 =
      registry.filterMap (specOptionCall m) ∧
    (∀ (l : List (ByteStr × String)) (k : ByteStr) (v : String),
      (∀ opt ∈ registry, opt.name ≠ k) →
      applyOptionsGo setOk registry (collected (l ++ [(k, v)])) =
        applyOptionsGo setOk registry (collected l)) ∧
    (∀ (opt : DeviceOption) (rest : List DeviceOption),
      opt.type_ ≠ .int → opt.type_ ≠ .string →
      applyOptionsGo setOk (opt :: rest) m = applyOptionsGo setOk rest m) :=
  ⟨applyOptionsGo_ok_calls setOk registry m hok,
    fun l k v hunk => applyOptionsGo_unknown_key setOk registry l k v hunk,
    fun opt rest h1 h2 => applyOptionsGo_skip_kind setOk m opt rest h1 h2⟩

/-- Claim C5 witness: a registry of one integer and one boolean option
against an assignment hitting the integer option and one unknown key:
no error, and the single issued call is the registry-order filterMap. -/
theorem c5_registry_order_permissive_witness :
    (applyOptionsGo (fun _ _ => true)
        [⟨[2], "t", .int⟩, ⟨[3], "u", .bool⟩]
        (collected [([2], "7"), ([9], "x")])).2 = none ∧
    (applyOptionsGo (fun _ _ => true)
        [⟨[2], "t", .int⟩, ⟨[3], "u", .bool⟩]
        (collected [([2], "7"), ([9], "x")])).1 =
      List.filterMap (specOptionCall (collected [([2], "7"), ([9], "x")]))
        [⟨[2], "t", .int⟩, ⟨[3], "u", .bool⟩] :=
  ⟨by decide,
    (c5_registry_order_permissive (fun _ _ => true)
      [⟨[2], "t", .int⟩, ⟨[3], "u", .bool⟩]
      (collected [([2], "7"), ([9], "x")]) (by decide)).1⟩

/-! ## Claim C7 -/

/-- Claim C7: for every Acquisition Parameters value whose color-layout
tag is a plane-only tag (red, green or blue), reconstruction hits the
explicit `todo!()`: it never returns an image and never falls back to
another layout. -/
theorem c7_plane_tags_unimplemented (params : ScanParameters) (data : List Nat)
    (h : params.format = .red ∨ params.format = .green ∨ params.format = .blue) :
    reconstruct params data = .unimplemented := by
  rcases params with ⟨f, lf, bpl, ppl, ln, d⟩
  rcases h with h | h | h <;> (simp only at h; subst h) <;> rfl

/-- Claim C7 witness: the red-plane tag with an empty buffer reaches the
unimplemented arm. -/
theorem c7_plane_tags_unimplemented_witness :
    ((⟨.red, false, 0, 0, 0, 0⟩ : ScanParameters).format = Frame.red ∨
      (⟨.red, false, 0, 0, 0, 0⟩ : ScanParameters).format = Frame.green ∨
      (⟨.red, false, 0, 0, 0, 0⟩ : ScanParameters).format = Frame.blue) ∧
    reconstruct ⟨.red, false, 0, 0, 0, 0⟩ [] = .unimplemented :=
  ⟨Or.inl rfl, c7_plane_tags_unimplemented ⟨.red, false, 0, 0, 0, 0⟩ [] (Or.inl rfl)⟩

/-! ## Claim C6 -/

/-- Claim C6 counterexample: on the exit route where enabling raw mode
succeeds but enabling bracketed paste fails, the function `?`-returns
before reaching the disable calls, so raw mode is left enabled — the
enabling call is not paired with its disabling counterpart on this
route. -/
theorem c6_counterexample :
    (⟨true, true, false, true, true, .ok, true⟩ : TuiEnv).enableRawOk = true ∧
    (tuiRun ⟨true, true, false, true, true, .ok, true⟩).1.rawMode = true ∧
    (tuiRun ⟨true, true, false, true, true, .ok, true⟩).1 ≠
      (⟨false, false⟩ : TermState) := by
  exact ⟨rfl, by decide, by decide⟩

/-- Claim C6 (amended): provided the terminal-control calls themselves
succeed (enabling bracketed paste and both disable calls), the terminal
is restored to its original state on every exit route — success, a
TUI-thread error, a sane-handler error, and the re-raised panic path
alike; the pairing guarantee fails only on the routes where one of those
terminal-control calls itself errors, in which case the early `?` return
skips the remaining disable calls. -/
theorem c6_amended (env : TuiEnv) (hbp : env.enableBpOk = true)
    (hdbp : env.disableBpOk = true) (hdraw : env.disableRawOk = true) :
    (tuiRun env).1 = ⟨false, false⟩ := by
  rcases env with ⟨n, er, eb, db, dr, t, s⟩
  simp only at hbp hdbp hdraw
  subst hbp hdbp hdraw
  cases n <;> cases er <;> cases t <;> cases s <;> rfl

/-- Claim C6 (amended) witness: with all terminal-control calls
succeeding and the TUI thread panicking, the terminal is restored. -/
theorem c6_amended_witness :
    (⟨true, true, true, true, true, .panic, false⟩ : TuiEnv).enableBpOk = true ∧
    (tuiRun ⟨true, true, true, true, true, .panic, false⟩).1 =
      (⟨false, false⟩ : TermState) :=
  ⟨rfl, c6_amended ⟨true, true, true, true, true, .panic, false⟩ rfl rfl rfl⟩

/-! ## Claim C8 -/

/-- Claim C8 counterexample: with one available device and the cursor on
the last item (index 0), pressing Down changes the stored cursor from
`some 0` to the out-of-range `some 1` — `select_next` saturates only at
`usize::MAX`, not at the end of the list, so the cursor does not stay
unchanged inside `handle_event`. -/
theorem c8_counterexample :
    (devicePickerHandleEvent ⟨some [⟨[65]⟩], ⟨some 0⟩⟩
        (some (.key ⟨.down, .press⟩))).1 =
      (⟨some [⟨[65]⟩], ⟨some 1⟩⟩ : DevicePicker) ∧
    (⟨some [⟨[65]⟩], ⟨some 1⟩⟩ : DevicePicker) ≠
      (⟨some [⟨[65]⟩], ⟨some 0⟩⟩ : DevicePicker) := by
  exact ⟨by decide, by decide⟩

/-- Claim C8 (amended): pressing Down advances the stored cursor index
by one without wraparound (it saturates only at `usize::MAX`) — at the
last item the index moves past the end, and the handler is total, so no
panic occurs; the list widget clamps the highlight back to the last item
only at draw time, outside `handle_event`.  Pressing Enter when no
device is highlighted — the devices/cursor lookup yields nothing: the
device list is absent or empty, the cursor is unset (as right after
`init`), or the stored index is out of range — yields `Noop` and leaves
the state unchanged, never `SetActiveDevice`. -/
theorem c8_amended (k : KeyEventKind) :
    (∀ (p : DevicePicker) (i : Nat), p.list_state.selected = some i →
      i < USIZE_MAX →
      (devicePickerHandleEvent p (some (.key ⟨.down, k⟩))).1.list_state.selected =
          some (i + 1) ∧
        (devicePickerHandleEvent p (some (.key ⟨.down, k⟩))).2 = .noop) ∧
    (∀ p : DevicePicker,
      p.available_devices.bind
          (fun d => p.list_state.selected.bind fun i => d.get? i) = none →
      devicePickerHandleEvent p (some (.key ⟨.enter, k⟩)) = (p, .noop)) := by
  constructor
  · intro p i hsel hlt
    constructor
    · simp only [devicePickerHandleEvent, selectNext, hsel]
      rw [Nat.min_eq_left (by omega)]
    · rfl
  · intro p hnone
    simp only [devicePickerHandleEvent, hnone]

/-- Claim C8 (amended) witness: Down at the single (last) item moves the
stored index from 0 to 1 and returns `Noop`; Enter in the post-`init`
state (devices present, cursor unset) leaves the picker unchanged and
returns `Noop`. -/
theorem c8_amended_witness :
    (((⟨some [⟨[65]⟩], ⟨some 0⟩⟩ : DevicePicker).list_state.selected = some 0) ∧
      (0 < USIZE_MAX) ∧
      (devicePickerHandleEvent ⟨some [⟨[65]⟩], ⟨some 0⟩⟩
          (some (.key ⟨.down, .press⟩))).1.list_state.selected = some 1 ∧
      (devicePickerHandleEvent ⟨some [⟨[65]⟩], ⟨some 0⟩⟩
          (some (.key ⟨.down, .press⟩))).2 = .noop) ∧
    (((⟨some [⟨[65]⟩], ⟨none⟩⟩ : DevicePicker).available_devices.bind
          (fun d => (⟨some [⟨[65]⟩], ⟨none⟩⟩ : DevicePicker).list_state.selected.bind
            fun i => d.get? i) = none) ∧
      devicePickerHandleEvent ⟨some [⟨[65]⟩], ⟨none⟩⟩
          (some (.key ⟨.enter, .press⟩)) =
        ((⟨some [⟨[65]⟩], ⟨none⟩⟩ : DevicePicker), Action.noop)) :=
  ⟨⟨rfl, by decide,
      (c8_amended .press).1 ⟨some [⟨[65]⟩], ⟨some 0⟩⟩ 0 rfl (by decide)⟩,
    ⟨rfl, (c8_amended .press).2 ⟨some [⟨[65]⟩], ⟨none⟩⟩ rfl⟩⟩

/-! ## Claim C9 -/

/-- One event handled with an active device set leaves the whole
application state unchanged and never reaches the device picker. -/
theorem appHandleEvent_inert (a : App) (n : ByteStr) (e : Event)
    (hactive : a.config.active_device = some n) :
    (appHandleEvent a e).1 = a ∧ (appHandleEvent a e).2.2 = false := by
  rcases e with ⟨code, kind⟩ | ⟨w, h⟩ | _
  · cases code <;> cases kind <;>
      simp [appHandleEvent, hactive]
  · simp [appHandleEvent, hactive]
  · simp [appHandleEvent, hactive]

/-- Claim C9: once the active-device field is set, every subsequent
sequence of events leaves the application state — in particular the
active device — unchanged, and no event of the sequence is delegated to
the device-picker component: there is no reverse transition. -/
theorem c9_active_device_stable (a : App) (n : ByteStr) (es : List Event)
    (hactive : a.config.active_device = some n) :
    (appHandleEvents a es).1 = a ∧ (appHandleEvents a es).2 = false := by
  induction es generalizing a with
  | nil => exact ⟨rfl, rfl⟩
  | cons e rest ih =>
    have hstep := appHandleEvent_inert a n e hactive
    rw [appHandleEvents, hstep.1]
    obtain ⟨ih1, ih2⟩ := ih a hactive
    rw [ih1, ih2, hstep.2]
    exact ⟨rfl, rfl⟩

/-- Claim C9 witness: with active device `[1]`, a Down press followed by
an Enter press leaves the application unchanged, with no delegation. -/
theorem c9_active_device_stable_witness :
    ((⟨⟨some [1]⟩, ⟨none, ⟨none⟩⟩⟩ : App).config.active_device = some [1]) ∧
    (appHandleEvents ⟨⟨some [1]⟩, ⟨none, ⟨none⟩⟩⟩
        [.key ⟨.down, .press⟩, .key ⟨.enter, .press⟩]).1 =
      (⟨⟨some [1]⟩, ⟨none, ⟨none⟩⟩⟩ : App) ∧
    (appHandleEvents ⟨⟨some [1]⟩, ⟨none, ⟨none⟩⟩⟩
        [.key ⟨.down, .press⟩, .key ⟨.enter, .press⟩]).2 = false :=
  ⟨rfl,
    (c9_active_device_stable ⟨⟨some [1]⟩, ⟨none, ⟨none⟩⟩⟩ [1]
      [.key ⟨.down, .press⟩, .key ⟨.enter, .press⟩] rfl).1,
    (c9_active_device_stable ⟨⟨some [1]⟩, ⟨none, ⟨none⟩⟩⟩ [1]
      [.key ⟨.down, .press⟩, .key ⟨.enter, .press⟩] rfl).2⟩

/-! ## Claim C10 -/

/-- Every effect of the stages after file creation is a `set_option`
call, the acquisition start, the sample read or the encode — never
another file creation or device open. -/
theorem scanFromOptions_no_file_effect (env : ScanEnv)
    (m : ByteStr → Option String) :
    ∀ e ∈ (scanFromOptions env m).1,
      e ≠ Effect.createFile ∧ ∀ n, e ≠ Effect.openDevice n := by
  have hmap : ∀ (calls : List (ByteStr × DeviceOptionValue)) (x : Effect),
      x ∈ calls.map (fun c => Effect.setOption c.1 c.2) →
      x ≠ Effect.createFile ∧ ∀ n, x ≠ Effect.openDevice n := by
    intro calls x hx
    rcases List.mem_map.mp hx with ⟨c, _, hc⟩
    subst hc
    exact ⟨fun h => Effect.noConfusion h, fun n h => Effect.noConfusion h⟩
  have hacq : ∀ x ∈ (scanAcquireStage env).1,
      x = Effect.startScan ∨ x = Effect.readData ∨ x = Effect.encode := by
    intro x hx
    rw [scanAcquireStage] at hx
    cases hsp : env.scanParams with
    | none =>
      rw [hsp] at hx
      replace hx : x ∈ [Effect.startScan] := hx
      simp only [List.mem_singleton] at hx
      exact Or.inl hx
    | some params =>
      rw [hsp] at hx
      cases hrd : env.readResult with
      | none =>
        rw [hrd] at hx
        replace hx : x ∈ [Effect.startScan] := hx
        simp only [List.mem_singleton] at hx
        exact Or.inl hx
      | some data =>
        rw [hrd] at hx
        replace hx : x ∈ (scanReconstructStage env params data).1 := hx
        rw [scanReconstructStage] at hx
        cases hrec : reconstruct params data with
        | err e2 =>
          rw [hrec] at hx
          replace hx : x ∈ [Effect.startScan, Effect.readData] := hx
          simp only [List.mem_cons, List.not_mem_nil, or_false] at hx
          tauto
        | unimplemented =>
          rw [hrec] at hx
          replace hx : x ∈ [Effect.startScan, Effect.readData] := hx
          simp only [List.mem_cons, List.not_mem_nil, or_false] at hx
          tauto
        | ok img =>
          rw [hrec] at hx
          by_cases henc : env.encodeOk = true
          · rw [if_pos henc] at hx
            replace hx : x ∈ [Effect.startScan, Effect.readData, Effect.encode] := hx
            simp only [List.mem_cons, List.not_mem_nil, or_false] at hx
            tauto
          · rw [if_neg henc] at hx
            replace hx : x ∈ [Effect.startScan, Effect.readData] := hx
            simp only [List.mem_cons, List.not_mem_nil, or_false] at hx
            tauto
  intro e he
  rw [scanFromOptions] at he
  by_cases hgo : env.getOptionsOk = false
  · rw [if_pos hgo] at he
    exact absurd he (List.not_mem_nil e)
  · rw [if_neg hgo] at he
    rcases happ : applyOptionsGo env.setOk env.registry m with ⟨calls, oerr⟩
    rw [happ] at he
    cases oerr with
    | some e1 =>
      replace he : e ∈ calls.map (fun c => Effect.setOption c.1 c.2) := he
      exact hmap calls e he
    | none =>
      replace he : e ∈ calls.map (fun c => Effect.setOption c.1 c.2) ++
        (scanAcquireStage env).1 := he
      rcases List.mem_append.mp he with hm1 | hm1
      · exact hmap calls e hm1
      · rcases hacq e hm1 with rfl | rfl | rfl <;>
          exact ⟨fun h => Effect.noConfusion h, fun n h => Effect.noConfusion h⟩

/-- Claim C10: whenever the device is found and opened and the
destination file is created, the file creation is the very next effect
after the open — before any `set_option`, acquisition, read or encode —
and no later effect touches the file again; hence every later-stage
failure leaves the destination already created and truncated, so the
operation is not atomic with respect to the destination path even when
no sample data was ever read. -/
theorem c10_file_truncated_before_options (env : ScanEnv) (name : ByteStr)
    (opts : List (ByteStr × String)) (d : Device)
    (hdev : env.getDevicesOk = true)
    (hfind : env.devices.find? (fun x => x.name == name) = some d)
    (hopen : env.openOk = true) (hfile : env.fileOk = true) :
    ∃ rest, (scan env name opts).1 =
        Effect.openDevice d.name :: Effect.createFile :: rest ∧
      ∀ e ∈ rest, e ≠ Effect.createFile ∧ ∀ n, e ≠ Effect.openDevice n := by
  refine ⟨(scanFromOptions env (collected opts)).1, ?_,
    scanFromOptions_no_file_effect env (collected opts)⟩
  rw [scan_shape env name opts d hdev hfind hopen hfile]

/-- Claim C10 witness: in the run of the C3 scenario — where option
parsing fails and no sample data is ever read — the trace still starts
with the device open followed by the file creation. -/
theorem c10_file_truncated_before_options_witness :
    ((⟨true, [⟨[1]⟩], true, true, true, [⟨[2], "t", .int⟩],
        fun _ _ => true, none, none, true⟩ : ScanEnv).fileOk = true) ∧
    ∃ rest, (scan ⟨true, [⟨[1]⟩], true, true, true, [⟨[2], "t", .int⟩],
          fun _ _ => true, none, none, true⟩ [1] [([2], "x")]).1 =
        Effect.openDevice [1] :: Effect.createFile :: rest ∧
      ∀ e ∈ rest, e ≠ Effect.createFile ∧ ∀ n, e ≠ Effect.openDevice n :=
  ⟨rfl,
    c10_file_truncated_before_options
      ⟨true, [⟨[1]⟩], true, true, true, [⟨[2], "t", .int⟩],
        fun _ _ => true, none, none, true⟩
      [1] [([2], "x")] ⟨[1]⟩ (by decide) (by decide) (by decide) (by decide)⟩

end Scannrs
